import Mathlib

/-!
Shallow embedding of the `funcnodes_worker` repository (WebSocket transport,
external-worker registry) and verification of its specification claims.

Bytes are modelled as `List Nat` (one entry per byte), stateful methods as
explicit state passing, Python `time.time()` floats as natural-number
timestamps (all comparisons in the code are order comparisons against the
integer 60, unaffected), and Python exceptions as `Except`.
-/

namespace FuncnodesWorker

/-- Bytes of a (UTF-8, but here only ASCII literals are used) string: one
`Nat` per `Char`.  Used for the literal header fragments of
`WSWorker.send_bytes` such as `"chunk="` and `";msgid="`. -/
def strBytes (s : String) : List Nat := s.toList.map Char.toNat

/-- Decimal digits (as ASCII bytes, most significant first) of `n`, with
explicit fuel for structural recursion; `decBytes` below supplies enough
fuel.  Mirrors Python `str(n)` / `"{}".format(n)` for a nonnegative int. -/
def decBytesAux : Nat → Nat → List Nat
  | 0, _ => []
  | fuel + 1, n => if n < 10 then [n + 48] else decBytesAux fuel (n / 10) ++ [n % 10 + 48]

/-- Decimal representation of `n` as ASCII bytes (Python `str(n)`). -/
def decBytes (n : Nat) : List Nat := decBytesAux n n

/-- Embedding of the per-chunk textual header of `WSWorker.send_bytes`:
`("chunk={number}/{total};msgid=" + str(uuid.uuid4()) + ";").format(...)`,
with the freshly generated message id passed in as `msgid`. -/
def chunkHeaderBytes (number total : Nat) (msgid : List Nat) : List Nat :=
  strBytes "chunk=" ++ decBytes number ++ strBytes "/" ++ decBytes total ++
    strBytes ";msgid=" ++ msgid ++ strBytes ";"

/-- Python `sep.join(parts)` on byte strings. -/
def joinSep (sep : List Nat) : List (List Nat) → List Nat
  | [] => []
  | [x] => x
  | x :: xs => x ++ sep ++ joinSep sep xs

/-- Embedding of `headerbytes` in `WSWorker.send_bytes`:
`"; ".join(f"{key}={value}" for key, value in header.items()).encode() + b"\r\n\r\n"`.
Keys and values are given directly as their UTF-8 bytes (UTF-8 of a
concatenation is the concatenation of the UTF-8 encodings). -/
def headerBytes (header : List (List Nat × List Nat)) : List Nat :=
  joinSep (strBytes "; ") (header.map (fun kv => kv.1 ++ strBytes "=" ++ kv.2)) ++
    [13, 10, 13, 10]

/-- Embedding of `WSWorker.send_bytes` (websocket.py lines 396-448), up to the
enqueueing: the list of chunk frames produced for payload `data`.
`maxDataSize` is the configurable `MAX_DATA_SIZE`, `msgid` the generated
the bytes of the generated `uuid.uuid4()` string.  `if not data: return` sends nothing;
`available_datasize <= 0` raises `"Header too large"`; otherwise chunk `k`
(0-based) is `chunkheader.format(number=k+1, total=nchunks) + headerbytes +
data[k*avail : k*avail + avail]`. -/
def sendBytesChunks (maxDataSize : Nat) (msgid : List Nat)
    (header : List (List Nat × List Nat)) (data : List Nat) :
    Except String (List (List Nat)) :=
  if data = [] then .ok []
  else
    let hb := headerBytes header
    let overhead := hb.length + (chunkHeaderBytes 9999 9999 msgid).length
    if maxDataSize ≤ overhead then .error "Header too large"
    else
      let avail := maxDataSize - overhead
      let nchunks := (data.length + avail - 1) / avail
      .ok ((List.range nchunks).map (fun k =>
        chunkHeaderBytes (k + 1) nchunks msgid ++ hb ++ (data.drop (k * avail)).take avail))

/-- Reassembly step used by the round-trip claim: strip everything up to and
including the first blank-line separator `\r\n\r\n` (bytes 13,10,13,10). -/
def stripChunkHead : List Nat → List Nat
  | [] => []
  | a :: rest => if a = 13 ∧ rest.take 3 = [10, 13, 10] then rest.drop 3 else stripChunkHead rest

/-- Concrete chunk produced by `sendBytesChunks 80 "M" [("k","v")] [1,2,3]`:
`"chunk=1/1;msgid=M;" + "k=v\r\n\r\n" + bytes`. -/
def c1WitnessChunk : List Nat :=
  [99, 104, 117, 110, 107, 61, 49, 47, 49, 59, 109, 115, 103, 105, 100, 61, 77, 59,
   107, 61, 118, 13, 10, 13, 10, 1, 2, 3]

/-- Default of the env-overridable `STARTPORT` (websocket.py line 39). -/
def STARTPORT : Nat := 9382

/-- Default of the env-overridable `ENDPORT` (websocket.py line 40). -/
def ENDPORT : Nat := 9582

/-- Default of the env-overridable `MESSAGE_SIZE_BEFORE_REQUEST` (1 MB). -/
def MESSAGE_SIZE_BEFORE_REQUEST : Nat := 1048576

/-- TTL of the large-message store (`LARGE_MESSAGE_MEMORY_TIMEOUT`, 60 s). -/
def LARGE_MESSAGE_MEMORY_TIMEOUT : Nat := 60

/-- Outcome of the `WSLoop._assert_connection` bind-retry loop. -/
inductive PortResult
  | bound (port : Nat)
  | exhausted (finalPort : Nat)
  | spin
deriving DecidableEq

/-- Iterations of the `while True` loop of `WSLoop._assert_connection`
(websocket.py lines 281-299), with explicit fuel (the loop performs at most
`endport - port + 2` iterations, which `assertConnection` supplies, so
`.spin` is unreachable).  `bindOk p` abstracts "binding `(host, p)` raises
no `OSError`".  On success the loop returns with the bound port; on
`OSError` the port is incremented, and as soon as it passes `endport` it is
reset to `startport` and `Exception("No free ports available")` is raised
(`.exhausted startport` carries that reset port). -/
def tryPorts (bindOk : Nat → Bool) (startport endport : Nat) : Nat → Nat → PortResult
  | 0, _ => .spin
  | fuel + 1, port =>
    if bindOk port then .bound port
    else if endport < port + 1 then .exhausted startport
    else tryPorts bindOk startport endport fuel (port + 1)

/-- Embedding of `WSLoop._assert_connection` starting from stored port
`port` (assuming `self.site is None`, so the loop is entered). -/
def assertConnection (bindOk : Nat → Bool) (startport endport port : Nat) : PortResult :=
  tryPorts bindOk startport endport (endport + 2 - port) port

/-- The `WSLoop.message_store` dict: message id to (text, timestamp).
The association list is read through `storeLookup` (first match), mirroring
a Python dict with unique keys. -/
abbrev MessageStore := List (String × String × Nat)

/-- Python dict membership test and read, `msg_id in store` / `store[msg_id]`. -/
def storeLookup : MessageStore → String → Option (String × Nat)
  | [], _ => none
  | (id, msg, ts) :: rest, key => if id = key then some (msg, ts) else storeLookup rest key

/-- Embedding of `WSLoop._handle_get_message` (websocket.py lines 169-180):
returns `some text` (HTTP 200 with the stored text) when the id is in the
store and `none` (HTTP 404 "Message not found") otherwise, together with
the store after the request — the handler only reads the store (the
`pop`-after-retrieval variant exists only in a comment in the source). -/
def handleGetMessage (store : MessageStore) (msgId : String) :
    Option String × MessageStore :=
  match storeLookup store msgId with
  | some (msg, _) => (some msg, store)
  | none => (none, store)

/-- Embedding of `WSLoop.clear_old_messages` (websocket.py lines 320-327):
pops every entry with `now - timestamp > 60`, keeping exactly those with
`now - timestamp <= 60`.  Timestamps are naturals; the Python float
subtraction of a future timestamp is negative hence kept, matching
truncated `Nat` subtraction giving 0. -/
def clearOldMessages (now : Nat) (store : MessageStore) : MessageStore :=
  store.filter (fun e => now - e.2.2 ≤ LARGE_MESSAGE_MEMORY_TIMEOUT)

/-- Result of one `WSWorker.sendmessage` call: the message store afterwards
and the `enqueue` calls it makes, as (client id, payload string) pairs in
order. -/
structure SendOutcome where
  store : MessageStore
  enqueued : List (Nat × String)
deriving DecidableEq

/-- The pointer object `json.dumps({"type": "large_message", "url": link,
"msg_id": msg_id})` with `link = f"http://{self.host}:{self.port}/message/{msg_id}"`
(json.dumps default separators; host and msg id contain no characters
needing JSON escaping — the id is a UUID). -/
def wrappedMsg (host : String) (port : Nat) (msgId : String) : String :=
  "\x7b\"type\": \"large_message\", \"url\": \"http://" ++ host ++ ":" ++ toString port ++
    "/message/" ++ msgId ++ "\", \"msg_id\": \"" ++ msgId ++ "\"\x7d"

/-- Embedding of `WSWorker.sendmessage` (websocket.py lines 450-482).
`msgId` is the generated `uuid.uuid4()` and `now` the `time.time()` value.
The oversize test `len(msg.encode("utf8")) * 1.1 > MESSAGE_SIZE_BEFORE_REQUEST`
is modelled exactly rationally as `10 * threshold < 11 * utf8-size`
(the 10% factor dwarfs any float rounding of the product).  A given
`client_connection` receives the single enqueue; otherwise every connected
client receives one (none when no clients are connected). -/
def sendmessage (threshold : Nat) (host : String) (port : Nat) (msgId : String)
    (now : Nat) (store : MessageStore) (clients : List Nat) (msg : String)
    (target : Option Nat) : SendOutcome :=
  if msg = "" then ⟨store, []⟩
  else if 10 * threshold < 11 * msg.utf8ByteSize then
    ⟨(msgId, msg, now) :: store,
      (match target with
        | some c => [c]
        | none => clients).map (fun c => (c, wrappedMsg host port msgId))⟩
  else
    ⟨store,
      (match target with
        | some c => [c]
        | none => clients).map (fun c => (c, msg))⟩

/-- Capacity of a `ClientConnection` outbound queue:
`asyncio.Queue(maxsize=1000)` (websocket.py line 54). -/
def queueMaxsize : Nat := 1000

/-- Embedding of `ClientConnection.enqueue` (websocket.py lines 73-77):
`put_nowait` appends unless the queue already holds `cap` items
(`asyncio.QueueFull`), in which case the new message is dropped with a
warning.  The function is total: the producer never blocks, and the
`QueueFull` exception never escapes. -/
def enqueue (cap : Nat) (q : List String) (msg : String) : List String :=
  if cap ≤ q.length then q else q ++ [msg]

/-- A sequence of `enqueue` calls before any drain. -/
def enqueueAll (cap : Nat) (q : List String) (msgs : List String) : List String :=
  msgs.foldl (enqueue cap) q

/-- Observable state of one `ClientConnection` for the shutdown claim:
whether a close frame was sent on its websocket and whether its dedicated
`send_task` has been cancelled. -/
structure ClientConn where
  closeSent : Bool
  senderCancelled : Bool
deriving DecidableEq

/-- Observable state of a `WSLoop` for the shutdown claim.  `loopRunning`
is the `CustomLoop` running flag (loop.py is not among the sources;
modelled from the spec: `stop()` awaits full shutdown before the owning
Loop reports stopped). -/
structure WSLoopState where
  clients : List ClientConn
  messageStore : MessageStore
  siteActive : Bool
  runnerActive : Bool
  loopRunning : Bool
deriving DecidableEq

/-- Embedding of `WSLoop.stop` (websocket.py lines 336-355): send a close
frame (`client.ws.close(code=GOING_AWAY, ...)`) to every connected client,
clear the message store, stop the site, clean up the runner, then
`await super().stop()` (modelled as clearing `loopRunning`).  Nothing in
the method touches `ClientConnection.send_task`, so the `senderCancelled`
flag of each client is carried over unchanged. -/
def wsStop (s : WSLoopState) : WSLoopState :=
  { clients := s.clients.map (fun c => { c with closeSent := true }),
    messageStore := [],
    siteActive := false,
    runnerActive := false,
    loopRunning := false }

/-- Python `{**old, **upd}`: merge of two field maps, right-biased. -/
def dictMerge (old upd : List (String × String)) : List (String × String) :=
  old.filter (fun kv => !(upd.any (fun kv2 => kv2.1 == kv.1))) ++ upd

/-- Embedding of `FuncNodesExternalWorker.update_config`
(external_worker.py lines 60-69), state-passing: first component is the
outcome of the call (`.error` models the pydantic `ValidationError` raised by
`self.config_cls(**{**self._config.model_dump(), **preconfig})`, which
`update_config` itself does not catch), second the `_config` of the instance
after the call.  `validateCfg` abstracts the `config_cls` validating
constructor on the merged field map.  On `config is None` the method
returns immediately; on validation failure the assignment to `self._config`
never happens, so the previous config remains. -/
def updateConfig
    (validateCfg : List (String × String) → Except String (List (String × String)))
    (current : List (String × String)) (cfg : Option (List (String × String))) :
    Except String Unit × List (String × String) :=
  match cfg with
  | none => (.ok (), current)
  | some p =>
    match validateCfg (dictMerge current p) with
    | .ok newc => (.ok (), newc)
    | .error e => (.error e, current)

/-- Embedding of the config part of `FuncNodesExternalWorker.__init__`
(external_worker.py lines 49-53): `self._config = self.config_cls()` (the
`default`), then `update_config(config)` wrapped in
`try: ... except Exception: pass` — the config after construction is
whatever `update_config` left behind, the raised error being swallowed. -/
def initWorkerConfig
    (validateCfg : List (String × String) → Except String (List (String × String)))
    (default : List (String × String)) (cfg : Option (List (String × String))) :
    List (String × String) :=
  (updateConfig validateCfg default cfg).2

/-- One registered external-worker instance as seen through the registry:
its uuid, whether the referent of the weak reference still exists (`alive`) and
its `CustomLoop` `running` flag. -/
structure WorkerInst where
  uuid : String
  alive : Bool
  running : Bool
deriving DecidableEq

/-- The class-level `RUNNING_WORKERS` dict: class id to registered
instances.  `WeakValueDictionary` iteration yields only entries whose
referent still exists, i.e. the `alive` ones. -/
abbrev Registry := List (String × List WorkerInst)

/-- Python dict lookup on the registry. -/
def regLookup : Registry → String → Option (List WorkerInst)
  | [], _ => none
  | (cid, l) :: rest, key => if cid = key then some l else regLookup rest key

/-- Python dict assignment `reg[cid] = l` (replace or append). -/
def regSet : Registry → String → List WorkerInst → Registry
  | [], cid, l => [(cid, l)]
  | (c, l0) :: rest, cid, l =>
    if c = cid then (cid, l) :: rest else (c, l0) :: regSet rest cid l

/-- Embedding of the registration in `FuncNodesExternalWorker.__init__`
(external_worker.py lines 54-58): create `RUNNING_WORKERS[NODECLASSID]`
when absent, then `RUNNING_WORKERS[NODECLASSID][self.uuid] = self`
(dict assignment, replacing any entry with the same uuid). -/
def registerWorker (reg : Registry) (cid : String) (w : WorkerInst) : Registry :=
  regSet reg cid (((regLookup reg cid).getD []).filter (fun x => !(x.uuid == w.uuid)) ++ [w])

/-- Embedding of `FuncNodesExternalWorker.running_instances`
(external_worker.py lines 99-119): `[]` for an unknown class id; otherwise
the `WeakValueDictionary` values (only entries whose referent still exists)
whose `running` flag is true. -/
def runningInstances (reg : Registry) (cid : String) : List WorkerInst :=
  match regLookup reg cid with
  | none => []
  | some l => (l.filter (fun w => w.alive)).filter (fun w => w.running)

/-! ## Supporting lemmas -/

theorem decBytesAux_mem_ge {fuel n b : Nat} (hb : b ∈ decBytesAux fuel n) : 48 ≤ b := by
  induction fuel generalizing n with
  | zero => simp [decBytesAux] at hb
  | succ f ih =>
    unfold decBytesAux at hb
    by_cases h : n < 10
    · simp [h] at hb
      omega
    · simp [h] at hb
      rcases hb with hb | hb
      · exact ih hb
      · omega

theorem decBytes_no_cr {n b : Nat} (hb : b ∈ decBytes n) : b ≠ 13 := by
  have := decBytesAux_mem_ge hb
  omega

theorem chunkHeaderBytes_no_cr {number total : Nat} {msgid : List Nat}
    (hm : ∀ b ∈ msgid, b ≠ 13) :
    ∀ b ∈ chunkHeaderBytes number total msgid, b ≠ 13 := by
  intro b hb
  simp only [chunkHeaderBytes, List.mem_append] at hb
  rcases hb with ((((((hb | hb) | hb) | hb) | hb) | hb) | hb)
  · exact (by decide : ∀ c ∈ strBytes "chunk=", c ≠ 13) b hb
  · exact decBytes_no_cr hb
  · exact (by decide : ∀ c ∈ strBytes "/", c ≠ 13) b hb
  · exact decBytes_no_cr hb
  · exact (by decide : ∀ c ∈ strBytes ";msgid=", c ≠ 13) b hb
  · exact hm b hb
  · exact (by decide : ∀ c ∈ strBytes ";", c ≠ 13) b hb

theorem mem_joinSep {sep : List Nat} {l : List (List Nat)} {b : Nat}
    (hb : b ∈ joinSep sep l) : b ∈ sep ∨ ∃ x ∈ l, b ∈ x := by
  induction l with
  | nil => simp [joinSep] at hb
  | cons x xs ih =>
    match xs, hb with
    | [], hb => exact Or.inr ⟨x, by simp, hb⟩
    | y :: t, hb =>
      simp only [joinSep, List.mem_append] at hb
      rcases hb with (hb | hb) | hb
      · exact Or.inr ⟨x, by simp, hb⟩
      · exact Or.inl hb
      · rcases ih hb with h | ⟨z, hz, hbz⟩
        · exact Or.inl h
        · exact Or.inr ⟨z, by simp [hz], hbz⟩

theorem headerMeta_no_cr {header : List (List Nat × List Nat)}
    (hh : ∀ kv ∈ header, (∀ b ∈ kv.1, b ≠ 13) ∧ ∀ b ∈ kv.2, b ≠ 13) :
    ∀ b ∈ joinSep (strBytes "; ")
      (header.map (fun kv => kv.1 ++ strBytes "=" ++ kv.2)), b ≠ 13 := by
  intro b hb
  rcases mem_joinSep hb with h | ⟨x, hx, hbx⟩
  · exact (by decide : ∀ c ∈ strBytes "; ", c ≠ 13) b h
  · rcases List.mem_map.1 hx with ⟨kv, hkv, rfl⟩
    simp only [List.mem_append] at hbx
    rcases hbx with (h | h) | h
    · exact (hh kv hkv).1 b h
    · exact (by decide : ∀ c ∈ strBytes "=", c ≠ 13) b h
    · exact (hh kv hkv).2 b h

theorem stripChunkHead_pre {pre rest : List Nat} (hpre : ∀ b ∈ pre, b ≠ 13) :
    stripChunkHead (pre ++ 13 :: 10 :: 13 :: 10 :: rest) = rest := by
  induction pre with
  | nil => simp [stripChunkHead]
  | cons a pre ih =>
    have ha : a ≠ 13 := hpre a (by simp)
    simp only [List.cons_append, stripChunkHead]
    rw [if_neg (by simp [ha])]
    exact ih (fun b hb => hpre b (by simp [hb]))

theorem slices_flatten {a : Nat} :
    ∀ (n : Nat) (d : List Nat), d.length ≤ n * a →
      ((List.range n).map (fun k => (d.drop (k * a)).take a)).flatten = d := by
  intro n
  induction n with
  | zero =>
    intro d hd
    simp at hd
    simp [hd]
  | succ n ih =>
    intro d hd
    rw [List.range_succ_eq_map]
    simp only [List.map_cons, List.map_map, List.flatten_cons, Nat.zero_mul, List.drop_zero]
    have hrw : ((List.range n).map ((fun k => (d.drop (k * a)).take a) ∘ Nat.succ)) =
        (List.range n).map (fun k => ((d.drop a).drop (k * a)).take a) := by
      apply List.map_congr_left
      intro k _
      simp only [Function.comp]
      rw [List.drop_drop]
      rw [Nat.succ_mul, Nat.add_comm]
    have hna : (n + 1) * a = n * a + a := Nat.succ_mul n a
    rw [hrw, ih (d.drop a) (by simp; omega)]
    exact List.take_append_drop a d

theorem ceil_mul_ge {l a : Nat} (ha : 0 < a) : l ≤ (l + a - 1) / a * a := by
  rcases Nat.eq_zero_or_pos l with rfl | hl
  · simp
  · have h1 : l + a - 1 = (l - 1) + a := by omega
    rw [h1, Nat.add_div_right _ ha, Nat.add_mul, Nat.one_mul]
    have h2 := Nat.div_add_mod' (l - 1) a
    have h3 := Nat.mod_lt (l - 1) ha
    omega

/-! ## C1: chunk round-trip -/

/-- C1 (counterexample): with a header value that itself contains the
blank-line separator bytes `\r\n\r\n`, stripping each chunk up to the first
separator does not recover the payload: for payload `[1,2,3]` the
reassembled bytes are `[97,13,10,13,10,1,2,3]`.  So the claim as stated
fails for some header dicts. -/
theorem sendBytes_roundtrip_counterexample :
    ((sendBytesChunks 80 (strBytes "M") [(strBytes "k", [13, 10, 13, 10, 97])]
        [1, 2, 3]).map (fun cs => (cs.map stripChunkHead).flatten)) =
      .ok [97, 13, 10, 13, 10, 1, 2, 3] ∧
    [97, 13, 10, 13, 10, 1, 2, 3] ≠ ([1, 2, 3] : List Nat) := by
  constructor
  · rfl
  · decide

/-- C1 (amended): provided the message id and the header keys and values
contain no carriage-return byte (13) — in particular no `\r\n\r\n`, which the
counterexample shows must be excluded — the chunks produced by
`WSWorker.send_bytes` partition the payload: stripping each chunk up to and
including the first `\r\n\r\n` and concatenating in ascending order
reproduces the original bytes, and chunk `k` (0-based) carries the textual
header with 1-based index `k+1`, total count equal to the number of chunks
emitted, and the shared message id. -/
theorem sendBytes_roundtrip (maxDataSize : Nat) (msgid : List Nat)
    (header : List (List Nat × List Nat)) (data : List Nat)
    (chunks : List (List Nat))
    (hok : sendBytesChunks maxDataSize msgid header data = .ok chunks)
    (hdata : data ≠ [])
    (hm : ∀ b ∈ msgid, b ≠ 13)
    (hh : ∀ kv ∈ header, (∀ b ∈ kv.1, b ≠ 13) ∧ ∀ b ∈ kv.2, b ≠ 13) :
    (chunks.map stripChunkHead).flatten = data ∧
    ∀ k, (hk : k < chunks.length) →
      ∃ slice, chunks[k] =
        chunkHeaderBytes (k + 1) chunks.length msgid ++ headerBytes header ++ slice := by
  unfold sendBytesChunks at hok
  rw [if_neg hdata] at hok
  by_cases hbig : maxDataSize ≤ (headerBytes header).length +
      (chunkHeaderBytes 9999 9999 msgid).length
  · rw [if_pos hbig] at hok
    exact absurd hok (by simp)
  · rw [if_neg hbig] at hok
    have hchunks := Except.ok.inj hok.symm
    set avail := maxDataSize - ((headerBytes header).length +
      (chunkHeaderBytes 9999 9999 msgid).length) with havail
    set nchunks := (data.length + avail - 1) / avail with hnch
    have hapos : 0 < avail := by omega
    have hlenchunks : chunks.length = nchunks := by
      rw [hchunks]; simp
    have hnocr : ∀ k, ∀ b ∈ chunkHeaderBytes (k + 1) nchunks msgid ++
        joinSep (strBytes "; ")
          (header.map (fun kv => kv.1 ++ strBytes "=" ++ kv.2)), b ≠ 13 := by
      intro k b hb
      rcases List.mem_append.1 hb with h | h
      · exact chunkHeaderBytes_no_cr hm b h
      · exact headerMeta_no_cr hh b h
    have hstrip : ∀ k, stripChunkHead
        (chunkHeaderBytes (k + 1) nchunks msgid ++ headerBytes header ++
          (data.drop (k * avail)).take avail) = (data.drop (k * avail)).take avail := by
      intro k
      have hassoc : chunkHeaderBytes (k + 1) nchunks msgid ++ headerBytes header ++
          (data.drop (k * avail)).take avail =
          (chunkHeaderBytes (k + 1) nchunks msgid ++
            joinSep (strBytes "; ")
              (header.map (fun kv => kv.1 ++ strBytes "=" ++ kv.2))) ++
            13 :: 10 :: 13 :: 10 :: (data.drop (k * avail)).take avail := by
        simp [headerBytes]
      rw [hassoc]
      exact stripChunkHead_pre (hnocr k)
    constructor
    · rw [hchunks, List.map_map]
      have hmapeq : ((List.range nchunks).map
          (stripChunkHead ∘ fun k =>
            chunkHeaderBytes (k + 1) nchunks msgid ++ headerBytes header ++
              (data.drop (k * avail)).take avail)) =
          (List.range nchunks).map (fun k => (data.drop (k * avail)).take avail) := by
        apply List.map_congr_left
        intro k _
        exact hstrip k
      rw [hmapeq]
      exact slices_flatten nchunks data (ceil_mul_ge hapos)
    · intro k hk
      subst hchunks
      rw [hlenchunks]
      exact ⟨(data.drop (k * avail)).take avail, by simp⟩

/-- C1 witness: the round-trip theorem applied at a concrete single-chunk
send. -/
theorem sendBytes_roundtrip_witness :
    (sendBytesChunks 80 (strBytes "M") [(strBytes "k", strBytes "v")] [1, 2, 3] =
      .ok [c1WitnessChunk]) ∧
    (([c1WitnessChunk].map stripChunkHead).flatten = [1, 2, 3] ∧
      ∀ k, (hk : k < [c1WitnessChunk].length) →
        ∃ slice, [c1WitnessChunk][k] =
          chunkHeaderBytes (k + 1) [c1WitnessChunk].length (strBytes "M") ++
            headerBytes [(strBytes "k", strBytes "v")] ++ slice) :=
  ⟨by rfl,
    sendBytes_roundtrip 80 (strBytes "M") [(strBytes "k", strBytes "v")] [1, 2, 3]
      [c1WitnessChunk] (by rfl) (by decide) (by decide) (by decide)⟩

/-! ## C9: chunk size bound -/

theorem decBytesAux_length_le {fuel n d : Nat} (hn : n < 10 ^ d) (hd : 0 < d) :
    (decBytesAux fuel n).length ≤ d := by
  induction fuel generalizing n d with
  | zero => simp [decBytesAux]
  | succ f ih =>
    unfold decBytesAux
    by_cases h : n < 10
    · simp [h]
      omega
    · simp [h]
      match d, hn, hd with
      | 1, hn, _ => omega
      | d + 2, hn, _ =>
        have hq : n / 10 < 10 ^ (d + 1) := by
          rw [Nat.div_lt_iff_lt_mul (by norm_num)]
          calc n < 10 ^ (d + 2) := hn
          _ = 10 ^ (d + 1) * 10 := by rw [← pow_succ]
        have := ih hq (by omega)
        omega

theorem decBytes_length_le {n : Nat} (hn : n ≤ 9999) : (decBytes n).length ≤ 4 :=
  decBytesAux_length_le (by norm_num; omega) (by norm_num)

/-- C9 (counterexample): with `MAX_DATA_SIZE` configured to 29, a one-byte
message id, an empty header and a 10000-byte payload, the payload budget is
1 byte per chunk, 10000 chunks are emitted, and chunk number 1000 has
header `chunk=1000/10000;msgid=M;` — one byte longer than the budget
reserved via `chunkheader.format(number=9999, total=9999)` — so some chunk
exceeds the configured maximum frame size. -/
theorem sendBytes_chunk_size_counterexample :
    (sendBytesChunks 29 (strBytes "M") [] (List.replicate 10000 7)).map
      (fun cs => cs.getD 999 []) =
      .ok (chunkHeaderBytes 1000 10000 (strBytes "M") ++ headerBytes [] ++ [7]) ∧
    29 < (chunkHeaderBytes 1000 10000 (strBytes "M") ++ headerBytes [] ++ [7]).length := by
  constructor
  · unfold sendBytesChunks
    have hne : ¬ (List.replicate 10000 (7 : Nat) = []) := by
      intro h
      have hlen := congrArg List.length h
      rw [List.length_replicate] at hlen
      exact absurd hlen (by norm_num)
    rw [if_neg hne]
    dsimp only []
    have hov : (headerBytes ([] : List (List Nat × List Nat))).length +
        (chunkHeaderBytes 9999 9999 (strBytes "M")).length = 28 := by rfl
    rw [hov, if_neg (by norm_num)]
    simp only [Except.map, List.length_replicate]
    have hN : (10000 + (29 - 28) - 1) / (29 - 28) = 10000 := by norm_num
    rw [hN, Except.ok.injEq]
    rw [List.getD_eq_getElem?_getD, List.getElem?_map,
      List.getElem?_range (by norm_num : (999 : Nat) < 10000)]
    simp only [Option.map_some', Option.getD_some]
    have h1 : 999 + 1 = 1000 := by norm_num
    have h2 : 999 * (29 - 28) = 999 := by norm_num
    rw [h1, h2, List.drop_replicate, List.take_replicate]
    norm_num [List.replicate]
  · decide

/-- C9 (amended): every emitted chunk — chunk header plus metadata header
plus payload slice — fits inside the configured `MAX_DATA_SIZE`, provided
the number of chunks emitted does not exceed 9999 (the value whose digit
count the payload budget reserves room for; the counterexample shows the
bound fails beyond it). -/
theorem sendBytes_chunk_size (maxDataSize : Nat) (msgid : List Nat)
    (header : List (List Nat × List Nat)) (data : List Nat)
    (chunks : List (List Nat))
    (hok : sendBytesChunks maxDataSize msgid header data = .ok chunks)
    (hsmall : chunks.length ≤ 9999) :
    ∀ c ∈ chunks, c.length ≤ maxDataSize := by
  by_cases hdata : data = []
  · unfold sendBytesChunks at hok
    rw [if_pos hdata] at hok
    have : chunks = [] := (Except.ok.inj hok).symm
    simp [this]
  · unfold sendBytesChunks at hok
    rw [if_neg hdata] at hok
    by_cases hbig : maxDataSize ≤ (headerBytes header).length +
        (chunkHeaderBytes 9999 9999 msgid).length
    · rw [if_pos hbig] at hok
      exact absurd hok (by simp)
    · rw [if_neg hbig] at hok
      have hchunks := Except.ok.inj hok.symm
      set avail := maxDataSize - ((headerBytes header).length +
        (chunkHeaderBytes 9999 9999 msgid).length) with havail
      set nchunks := (data.length + avail - 1) / avail with hnch
      have hlen : chunks.length = nchunks := by rw [hchunks]; simp
      intro c hc
      rw [hchunks] at hc
      rcases List.mem_map.1 hc with ⟨k, hk, rfl⟩
      have hklt : k < nchunks := List.mem_range.1 hk
      have hnle : nchunks ≤ 9999 := by omega
      have hd1 : (decBytes (k + 1)).length ≤ 4 := decBytes_length_le (by omega)
      have hd2 : (decBytes nchunks).length ≤ 4 := decBytes_length_le hnle
      have hslice : ((data.drop (k * avail)).take avail).length ≤ avail := by
        simp [List.length_take]
      have hlenhdr : ∀ num tot : Nat, (chunkHeaderBytes num tot msgid).length =
          (decBytes num).length + (decBytes tot).length + msgid.length + 15 := by
        intro num tot
        simp only [chunkHeaderBytes, List.length_append]
        have e1 : (strBytes "chunk=").length = 6 := rfl
        have e2 : (strBytes "/").length = 1 := rfl
        have e3 : (strBytes ";msgid=").length = 7 := rfl
        have e4 : (strBytes ";").length = 1 := rfl
        omega
      have ho : (chunkHeaderBytes 9999 9999 msgid).length = msgid.length + 23 := by
        rw [hlenhdr]
        have e5 : (decBytes 9999).length = 4 := rfl
        omega
      rw [List.length_append, List.length_append, hlenhdr]
      omega

/-! ## C2: port retry on bind failure -/

theorem tryPorts_spec (bindOk : Nat → Bool) (startport endport : Nat) :
    ∀ (fuel port : Nat), port ≤ endport → endport + 1 - port ≤ fuel →
      ((tryPorts bindOk startport endport fuel port = .exhausted startport ↔
        ∀ p, port ≤ p → p ≤ endport → bindOk p = false) ∧
       (∀ q, tryPorts bindOk startport endport fuel port = .bound q →
          bindOk q = true ∧ port ≤ q ∧ q ≤ endport ∧
            ∀ p, port ≤ p → p < q → bindOk p = false)) := by
  intro fuel
  induction fuel with
  | zero => intro port hle hfuel; omega
  | succ f ih =>
    intro port hle hfuel
    by_cases hb : bindOk port = true
    · have hstep : tryPorts bindOk startport endport (f + 1) port = .bound port := by
        simp [tryPorts, hb]
      constructor
      · rw [hstep]
        constructor
        · intro h; exact absurd h (by simp)
        · intro hall; exact absurd (hall port le_rfl hle) (by simp [hb])
      · intro q hq
        rw [hstep] at hq
        have hqq : port = q := PortResult.bound.inj hq
        subst hqq
        exact ⟨hb, le_rfl, hle, fun p h1 h2 => absurd h2 (by omega)⟩
    · have hbf : bindOk port = false := Bool.eq_false_iff.2 hb
      by_cases hend : endport < port + 1
      · have hstep : tryPorts bindOk startport endport (f + 1) port =
            .exhausted startport := by
          simp [tryPorts, hbf, hend]
        constructor
        · rw [hstep]
          constructor
          · intro _ p h1 h2
            have hpp : p = port := by omega
            subst hpp
            exact hbf
          · intro _; rfl
        · intro q hq
          rw [hstep] at hq
          exact absurd hq (by simp)
      · have hstep : tryPorts bindOk startport endport (f + 1) port =
            tryPorts bindOk startport endport f (port + 1) := by
          simp [tryPorts, hbf, hend]
        have hrec := ih (port + 1) (by omega) (by omega)
        constructor
        · rw [hstep, hrec.1]
          constructor
          · intro h p h1 h2
            rcases Nat.eq_or_lt_of_le h1 with hpp | hlt
            · exact hpp ▸ hbf
            · exact h p (by omega) h2
          · intro h p h1 h2
            exact h p (by omega) h2
        · intro q hq
          rw [hstep] at hq
          obtain ⟨hbq, h1, h2, h3⟩ := hrec.2 q hq
          refine ⟨hbq, by omega, h2, ?_⟩
          intro p hp1 hp2
          rcases Nat.eq_or_lt_of_le hp1 with hpp | hlt
          · exact hpp ▸ hbf
          · exact h3 p (by omega) hp2

/-- C2 (counterexample): with the stored port starting at `ENDPORT`, a
single bind failure already raises the permanent
`"No free ports available"` failure (resetting the stored port to
`STARTPORT`), even though `STARTPORT` itself — and every other port of the
range — would have bound successfully: the loop does not wrap around and
retry the rest of the range, so the failure is not raised "only after every
port in the range has been tried and failed". -/
theorem assertConnection_counterexample :
    assertConnection (fun p => p == STARTPORT) STARTPORT ENDPORT ENDPORT =
      .exhausted STARTPORT ∧
    (fun p => p == STARTPORT) STARTPORT = true ∧ STARTPORT < ENDPORT := by
  refine ⟨by decide, by decide, by decide⟩

/-- C2 (amended): `_assert_connection` retries successive ports from the
current stored port up to `ENDPORT` only.  It raises the permanent failure
(resetting the stored port to `STARTPORT`) exactly when every port in
`[current, ENDPORT]` fails — ports below the current port, in particular
the wrapped-around part `[STARTPORT, current)`, are not retried in the same
call; and on success it returns the first port of `[current, ENDPORT]`
that binds. -/
theorem assertConnection_exhausts_range (bindOk : Nat → Bool)
    (startport endport port0 : Nat) (hle : port0 ≤ endport) :
    (assertConnection bindOk startport endport port0 = .exhausted startport ↔
      ∀ p, port0 ≤ p → p ≤ endport → bindOk p = false) ∧
    (∀ q, assertConnection bindOk startport endport port0 = .bound q →
      bindOk q = true ∧ port0 ≤ q ∧ q ≤ endport ∧
        ∀ p, port0 ≤ p → p < q → bindOk p = false) :=
  tryPorts_spec bindOk startport endport (endport + 2 - port0) port0 hle (by omega)

/-- C2 witness: the amended theorem applied to a three-port range where no
port binds. -/
theorem assertConnection_exhausts_range_witness :
    (9382 ≤ 9384) ∧
    ((assertConnection (fun _ => false) 9382 9384 9382 = .exhausted 9382 ↔
      ∀ p, 9382 ≤ p → p ≤ 9384 → (fun _ => false) p = false) ∧
     (∀ q, assertConnection (fun _ => false) 9382 9384 9382 = .bound q →
        (fun _ => false) q = true ∧ 9382 ≤ q ∧ q ≤ 9384 ∧
          ∀ p, 9382 ≤ p → p < q → (fun _ => false) p = false)) :=
  ⟨by omega,
    assertConnection_exhausts_range (fun _ => false) 9382 9384 9382 (by omega)⟩

/-! ## C3: oversized text messages are replaced by a pointer -/

/-- C3: a non-empty text whose UTF-8 size exceeds
`MESSAGE_SIZE_BEFORE_REQUEST` is stored under the generated id with the
current timestamp, and what gets enqueued — to the given client connection
when one is specified, otherwise one enqueue per connected client — is in
every case exactly the JSON pointer `{type: large_message, url, msg_id}`,
never the original text. -/
theorem sendmessage_oversized (threshold : Nat) (host : String) (port : Nat)
    (msgId : String) (now : Nat) (store : MessageStore) (clients : List Nat)
    (msg : String) (target : Option Nat)
    (hmsg : msg ≠ "")
    (hsize : threshold < msg.utf8ByteSize) :
    sendmessage threshold host port msgId now store clients msg target =
      ⟨(msgId, msg, now) :: store,
        (match target with
          | some c => [c]
          | none => clients).map (fun c => (c, wrappedMsg host port msgId))⟩ ∧
    ∀ pr ∈ (sendmessage threshold host port msgId now store clients msg target).enqueued,
      pr.2 = wrappedMsg host port msgId := by
  have hcond : 10 * threshold < 11 * msg.utf8ByteSize := by omega
  have heq : sendmessage threshold host port msgId now store clients msg target =
      ⟨(msgId, msg, now) :: store,
        (match target with
          | some c => [c]
          | none => clients).map (fun c => (c, wrappedMsg host port msgId))⟩ := by
    unfold sendmessage
    rw [if_neg hmsg, if_pos hcond]
  refine ⟨heq, ?_⟩
  rw [heq]
  intro pr hpr
  rcases List.mem_map.1 hpr with ⟨c, _, rfl⟩
  rfl

/-- C3 witness: a two-client broadcast of a text above a threshold of 1. -/
theorem sendmessage_oversized_witness :
    ("ab" ≠ "") ∧ (1 < "ab".utf8ByteSize) ∧
    (sendmessage 1 "h" 2 "i" 5 [] [0, 1] "ab" none =
      ⟨[("i", "ab", 5)], [(0, wrappedMsg "h" 2 "i"), (1, wrappedMsg "h" 2 "i")]⟩ ∧
     ∀ pr ∈ (sendmessage 1 "h" 2 "i" 5 [] [0, 1] "ab" none).enqueued,
       pr.2 = wrappedMsg "h" 2 "i") :=
  ⟨by decide, by decide,
    sendmessage_oversized 1 "h" 2 "i" 5 [] [0, 1] "ab" none (by decide) (by decide)⟩

/-! ## C4: retrieval and 60-second sweep -/

theorem storeLookup_none {store : MessageStore} {key : String}
    (h : key ∉ store.map (fun e => e.1)) : storeLookup store key = none := by
  induction store with
  | nil => rfl
  | cons e rest ih =>
    obtain ⟨id, m, t⟩ := e
    simp at h
    rw [storeLookup, if_neg (fun hh => h.1 hh.symm)]
    exact ih (by simpa using h.2)

theorem storeLookup_filter_pos {store : MessageStore} {msgId msg : String} {ts : Nat}
    {p : String × String × Nat → Bool}
    (hfound : storeLookup store msgId = some (msg, ts))
    (hp : p (msgId, msg, ts) = true) :
    storeLookup (store.filter p) msgId = some (msg, ts) := by
  induction store with
  | nil => simp [storeLookup] at hfound
  | cons e rest ih =>
    obtain ⟨id, m, t⟩ := e
    by_cases hid : id = msgId
    · subst hid
      rw [storeLookup, if_pos rfl] at hfound
      obtain ⟨rfl, rfl⟩ : m = msg ∧ t = ts := by
        have := Option.some.inj hfound
        exact ⟨congrArg Prod.fst this, congrArg Prod.snd this⟩
      rw [List.filter_cons, if_pos hp, storeLookup, if_pos rfl]
    · rw [storeLookup, if_neg hid] at hfound
      rw [List.filter_cons]
      by_cases hpe : p (id, m, t) = true
      · rw [if_pos hpe, storeLookup, if_neg hid]
        exact ih hfound
      · rw [if_neg hpe]
        exact ih hfound

theorem storeLookup_filter_neg {store : MessageStore} {msgId msg : String} {ts : Nat}
    {p : String × String × Nat → Bool}
    (hnodup : (store.map (fun e => e.1)).Nodup)
    (hfound : storeLookup store msgId = some (msg, ts))
    (hp : p (msgId, msg, ts) = false) :
    storeLookup (store.filter p) msgId = none := by
  induction store with
  | nil => simp [storeLookup] at hfound
  | cons e rest ih =>
    obtain ⟨id, m, t⟩ := e
    simp only [List.map_cons, List.nodup_cons] at hnodup
    by_cases hid : id = msgId
    · subst hid
      rw [storeLookup, if_pos rfl] at hfound
      obtain ⟨rfl, rfl⟩ : m = msg ∧ t = ts := by
        have := Option.some.inj hfound
        exact ⟨congrArg Prod.fst this, congrArg Prod.snd this⟩
      rw [List.filter_cons, if_neg (by simp [hp])]
      apply storeLookup_none
      intro hmem
      apply hnodup.1
      rcases List.mem_map.1 hmem with ⟨e2, he2, heq⟩
      exact List.mem_map.2 ⟨e2, (List.mem_filter.1 he2).1, heq⟩
    · rw [storeLookup, if_neg hid] at hfound
      rw [List.filter_cons]
      by_cases hpe : p (id, m, t) = true
      · rw [if_pos hpe, storeLookup, if_neg hid]
        exact ih hnodup.2 hfound
      · rw [if_neg hpe]
        exact ih hnodup.2 hfound

/-- C4 (counterexample): 61 seconds after an entry was stored at time 0 —
more than the 60-second TTL — `GET /message/{id}` still answers 200 with
the text, not 404: the handler checks only presence, and the entry is
removed only when the periodic sweep next runs. -/
theorem handleGetMessage_expiry_counterexample :
    60 < 61 - 0 ∧
    (handleGetMessage [("a", "x", 0)] "a").1 = some "x" ∧
    (handleGetMessage [("a", "x", 0)] "a").1 ≠ none := by
  refine ⟨by decide, by decide, by decide⟩

/-- C4 (amended): for a stored entry (store keys unique, as in a Python
dict): retrieval answers 200 with the exact original text whenever the
entry is still present; the sweep `clear_old_messages` keeps exactly the
entries aged at most 60 seconds (removing exactly those older than 60,
retrieved or not); an entry aged at most 60 survives the sweep and is still
retrieved exactly; and once the sweep has run on an entry older than 60
seconds, retrieval answers 404.  (Between passing 60 seconds of age and the
next sweep tick, retrieval still answers 200 — the counterexample.) -/
theorem messageStore_ttl (store : MessageStore) (msgId msg : String) (ts now : Nat)
    (hnodup : (store.map (fun e => e.1)).Nodup)
    (hfound : storeLookup store msgId = some (msg, ts)) :
    (handleGetMessage store msgId).1 = some msg ∧
    (∀ e, e ∈ clearOldMessages now store ↔ e ∈ store ∧ now - e.2.2 ≤ 60) ∧
    (now - ts ≤ 60 →
      (handleGetMessage (clearOldMessages now store) msgId).1 = some msg) ∧
    (60 < now - ts →
      (handleGetMessage (clearOldMessages now store) msgId).1 = none) := by
  refine ⟨?_, ?_, ?_, ?_⟩
  · unfold handleGetMessage
    rw [hfound]
  · intro e
    simp [clearOldMessages, List.mem_filter, LARGE_MESSAGE_MEMORY_TIMEOUT]
  · intro hyoung
    unfold handleGetMessage clearOldMessages
    rw [storeLookup_filter_pos hfound
      (by simp [LARGE_MESSAGE_MEMORY_TIMEOUT]; omega)]
  · intro hold
    unfold handleGetMessage clearOldMessages
    rw [storeLookup_filter_neg hnodup hfound
      (by simp [LARGE_MESSAGE_MEMORY_TIMEOUT]; omega)]

/-- C4 witness: a single entry stored at time 0, swept at time 61. -/
theorem messageStore_ttl_witness :
    ((([("a", "x", 0)] : MessageStore).map (fun e => e.1)).Nodup) ∧
    (storeLookup [("a", "x", 0)] "a" = some ("x", 0)) ∧
    ((handleGetMessage [("a", "x", 0)] "a").1 = some "x" ∧
     (∀ e, e ∈ clearOldMessages 61 [("a", "x", 0)] ↔
        e ∈ ([("a", "x", 0)] : MessageStore) ∧ 61 - e.2.2 ≤ 60) ∧
     (61 - 0 ≤ 60 →
       (handleGetMessage (clearOldMessages 61 [("a", "x", 0)]) "a").1 = some "x") ∧
     (60 < 61 - 0 →
       (handleGetMessage (clearOldMessages 61 [("a", "x", 0)]) "a").1 = none)) :=
  ⟨by decide, by decide, messageStore_ttl [("a", "x", 0)] "a" "x" 0 61 (by decide) (by decide)⟩

/-- C9 witness: the chunk-size theorem applied to a concrete single-chunk
send within the 9999-chunk regime. -/
theorem sendBytes_chunk_size_witness :
    (sendBytesChunks 80 (strBytes "M") [(strBytes "k", strBytes "v")] [1, 2, 3] =
      .ok [[99, 104, 117, 110, 107, 61, 49, 47, 49, 59, 109, 115, 103, 105, 100,
            61, 77, 59, 107, 61, 118, 13, 10, 13, 10, 1, 2, 3]]) ∧
    ([[99, 104, 117, 110, 107, 61, 49, 47, 49, 59, 109, 115, 103, 105, 100,
       61, 77, 59, 107, 61, 118, 13, 10, 13, 10, 1, 2, 3]].length ≤ 9999) ∧
    ∀ c ∈ [[99, 104, 117, 110, 107, 61, 49, 47, 49, 59, 109, 115, 103, 105, 100,
            61, 77, 59, 107, 61, 118, 13, 10, 13, 10, 1, 2, 3]],
      c.length ≤ 80 :=
  ⟨by rfl, by decide,
    sendBytes_chunk_size 80 (strBytes "M") [(strBytes "k", strBytes "v")] [1, 2, 3]
      [[99, 104, 117, 110, 107, 61, 49, 47, 49, 59, 109, 115, 103, 105, 100,
        61, 77, 59, 107, 61, 118, 13, 10, 13, 10, 1, 2, 3]] (by rfl) (by decide)⟩

/-! ## C5: bounded lossy client queue -/

theorem enqueueAll_eq (cap : Nat) :
    ∀ (msgs q : List String), enqueueAll cap q msgs = q ++ msgs.take (cap - q.length) := by
  intro msgs
  induction msgs with
  | nil => intro q; simp [enqueueAll]
  | cons m rest ih =>
    intro q
    have hstep : enqueueAll cap q (m :: rest) = enqueueAll cap (enqueue cap q m) rest := by
      rfl
    by_cases hfull : cap ≤ q.length
    · have hq : enqueue cap q m = q := by unfold enqueue; rw [if_pos hfull]
      rw [hstep, hq, ih q]
      have hz : cap - q.length = 0 := by omega
      rw [hz]
      simp
    · have hq : enqueue cap q m = q ++ [m] := by unfold enqueue; rw [if_neg hfull]
      rw [hstep, hq, ih (q ++ [m])]
      have hpos : 0 < cap - q.length := by omega
      rw [List.take_cons hpos, List.append_assoc]
      simp only [List.length_append, List.length_cons, List.length_nil,
        List.singleton_append]
      congr 3

/-- C5: starting from an empty `ClientConnection` queue of capacity 1000,
any sequence of `enqueue` calls before any drain leaves exactly the first
1000 messages, in order: the queue never exceeds its capacity, and every
enqueue beyond the 1000th drops exactly that newest message.  `enqueue` is
a total function — the producer is never blocked and `asyncio.QueueFull`
never escapes it. -/
theorem clientQueue_bounded (msgs : List String) :
    (enqueueAll queueMaxsize [] msgs).length ≤ queueMaxsize ∧
    enqueueAll queueMaxsize [] msgs = msgs.take queueMaxsize := by
  have h := enqueueAll_eq queueMaxsize msgs []
  simp only [List.nil_append, List.length_nil, Nat.sub_zero] at h
  refine ⟨?_, h⟩
  rw [h]
  simp [List.length_take]

/-! ## C6: shutdown misses the sender tasks -/

/-- C6 (failing run): stopping a `WSLoop` with one connected client whose
sender task is still alive does send the close frame, clear the message
store, release the site and the runner, and mark the loop stopped — but the
dedicated sender task of the client is never cancelled (`WSLoop.stop` never
touches `ClientConnection.send_task`; `ClientConnection` has no `close()`
even though the tests of the repository itself call one). -/
theorem wsStop_sender_not_cancelled :
    (wsStop { clients := [{ closeSent := false, senderCancelled := false }],
              messageStore := [("a", "x", 0)],
              siteActive := true, runnerActive := true, loopRunning := true }) =
      { clients := [{ closeSent := true, senderCancelled := false }],
        messageStore := [], siteActive := false, runnerActive := false,
        loopRunning := false } ∧
    ((wsStop { clients := [{ closeSent := false, senderCancelled := false }],
               messageStore := [("a", "x", 0)],
               siteActive := true, runnerActive := true,
               loopRunning := true }).clients.all
      (fun c => c.senderCancelled)) = false := by
  refine ⟨by decide, by decide⟩

/-! ## C7: failed config merge -/

/-- C7 (counterexample): when validation of the merged record fails,
`update_config` raises the validation error past its caller — the
`try/except` that swallows it sits only in `__init__`.  (The config itself
is indeed left unchanged.) -/
theorem updateConfig_raises_counterexample :
    (updateConfig (fun _ => .error "validation failed") [("a", "1")]
      (some [("b", "2")])).1 = .error "validation failed" ∧
    (updateConfig (fun _ => .error "validation failed") [("a", "1")]
      (some [("b", "2")])).2 = [("a", "1")] := by
  refine ⟨by rfl, by rfl⟩

/-- C7 (amended): a failed merge-and-validate leaves the previous config
authoritative, but the exception propagates out of `update_config` itself;
it is swallowed only by the `try/except` on the construction path,
after which the default config remains. -/
theorem updateConfig_failed_merge
    (validateCfg : List (String × String) → Except String (List (String × String)))
    (current p : List (String × String)) (e : String)
    (herr : validateCfg (dictMerge current p) = .error e) :
    updateConfig validateCfg current (some p) = (.error e, current) ∧
    initWorkerConfig validateCfg current (some p) = current := by
  constructor
  · unfold updateConfig
    dsimp only
    rw [herr]
  · unfold initWorkerConfig updateConfig
    dsimp only
    rw [herr]

/-- C7 witness: an always-failing validator on a one-field update. -/
theorem updateConfig_failed_merge_witness :
    ((fun _ => (.error "bad" : Except String (List (String × String))))
        (dictMerge [("a", "1")] [("b", "2")]) = .error "bad") ∧
    (updateConfig (fun _ => .error "bad") [("a", "1")] (some [("b", "2")]) =
      (.error "bad", [("a", "1")]) ∧
     initWorkerConfig (fun _ => .error "bad") [("a", "1")] (some [("b", "2")]) =
      [("a", "1")]) :=
  ⟨rfl, updateConfig_failed_merge (fun _ => .error "bad") [("a", "1")] [("b", "2")]
    "bad" rfl⟩

/-! ## C8: registry and running_instances -/

theorem regLookup_regSet (reg : Registry) (cid : String) (l : List WorkerInst) :
    regLookup (regSet reg cid l) cid = some l := by
  induction reg with
  | nil => simp [regSet, regLookup]
  | cons e rest ih =>
    obtain ⟨c, l0⟩ := e
    by_cases hc : c = cid
    · subst hc
      simp [regSet, regLookup]
    · rw [regSet, if_neg hc, regLookup, if_neg hc]
      exact ih

/-- C8: `running_instances` of a class with no registry entry is empty; its
members are exactly the registered instances of that class id whose weak
referent still exists and whose running flag is true; and construction
registers the new instance under its class id. -/
theorem runningInstances_spec (reg : Registry) (cid : String) (w : WorkerInst) :
    (regLookup reg cid = none → runningInstances reg cid = []) ∧
    (∀ v, v ∈ runningInstances reg cid ↔
      ∃ l, regLookup reg cid = some l ∧ v ∈ l ∧ v.alive = true ∧ v.running = true) ∧
    w ∈ (regLookup (registerWorker reg cid w) cid).getD [] := by
  refine ⟨?_, ?_, ?_⟩
  · intro h
    unfold runningInstances
    rw [h]
  · intro v
    unfold runningInstances
    rcases h : regLookup reg cid with _ | l
    · simp
    · simp only [h, List.mem_filter, Option.some.injEq]
      constructor
      · rintro ⟨⟨hv, ha⟩, hr⟩
        exact ⟨l, rfl, hv, ha, hr⟩
      · rintro ⟨l2, hl2, hv, ha, hr⟩
        cases hl2
        exact ⟨⟨hv, ha⟩, hr⟩
  · unfold registerWorker
    rw [regLookup_regSet]
    simp

/-! ## C10: retrieval does not modify the store -/

/-- C10: `GET /message/{id}` leaves the message store unchanged, and
repeating the same request gives the same response — the entry is
retrievable repeatedly until the sweep purges it. -/
theorem handleGetMessage_pure (store : MessageStore) (msgId : String) :
    (handleGetMessage store msgId).2 = store ∧
    handleGetMessage (handleGetMessage store msgId).2 msgId =
      handleGetMessage store msgId := by
  unfold handleGetMessage
  rcases h : storeLookup store msgId with _ | ⟨m, t⟩ <;> simp [h]

end FuncnodesWorker
